import Mathlib

/-!
Shallow embedding of the associative memory store of `ai_girlfriend`
(`src/ai_girlfriend/core/memory_system.py`), together with theorems that
settle the behavioural claims about it.

Modelling conventions:
* SQLite rows are Lean structures; the `memories` table is a `List MemoryRecord`
  kept in insertion (rowid) order, with `AUTOINCREMENT` modelled by `nextId`.
* Timestamps (`timestamp`, `last_accessed`, `expiration_date`,
  `CURRENT_TIMESTAMP`, `julianday`) are a single `Int` time scale measured in
  days, preserving order; `julianday('now') - julianday(last_accessed)` becomes
  plain subtraction.
* JSON payloads written into the `content`/`metadata` columns are abstracted to
  the inductive `Payload`, keeping the constituents the writers serialize.
* Machine floats appear only in `int(intensity * 20)` inside the importance
  scorer; it is modelled in exact arithmetic as ⌊|h - 50| * 20 / 50⌋.
* `try/except` blocks become `Except` for the guarded body plus a wrapper that
  catches, mirroring the Python functions that log and return `None`.
-/

namespace MemorySys

/-- Prefix test on character lists: `prefixAt p h` holds when `p` starts `h`. -/
def prefixAt : List Char → List Char → Bool
  | [], _ => true
  | _ :: _, [] => false
  | p :: ps, h :: hs => p == h && prefixAt ps hs

/-- Occurrence of `pat` as a contiguous substring of the second list; models
both Python's `in` on strings and SQL `LIKE '%pat%'` on non-NULL text. -/
def occursIn (pat : List Char) : List Char → Bool
  | [] => prefixAt pat []
  | h :: hs => prefixAt pat (h :: hs) || occursIn pat hs

/-- Substring test on strings. -/
def strContains (hay pat : String) : Bool := occursIn pat.data hay.data

/-- Chinese stopword set of `_extract_keywords`. -/
def stopwords : List String :=
  ["的", "了", "和", "是", "在", "我", "你", "他", "她", "它",
   "这", "那", "有", "就", "都", "也", "还", "但", "而", "吗"]

/-- Character filter of `_extract_keywords`: models
`char.isalnum() or '一' <= char <= '鿿'` (for the ASCII and CJK
alphabets exercised by this development, `Char.isAlphanum` matches Python's
`str.isalnum` on the ASCII range and the explicit CJK range is kept verbatim). -/
def keepChar (c : Char) : Bool :=
  c.isAlphanum || (0x4e00 ≤ c.toNat && c.toNat ≤ 0x9fff)

/-- Emit the pending word if it passes the `len > 1` and stopword checks of
`_extract_keywords`. -/
def flushWord (w : String) : List String :=
  if w.length > 1 && !(stopwords.contains w) then [w] else []

/-- Word-splitting loop of `_extract_keywords`: accumulate runs of kept
characters, flushing at separators and at the end of the text. -/
def splitWords : List Char → String → List String
  | [], cur => flushWord cur
  | c :: rest, cur =>
    if keepChar c then splitWords rest (cur.push c)
    else flushWord cur ++ splitWords rest ""

/-- First-occurrence deduplication, models `list(dict.fromkeys(words))`. -/
def dedupAux : List String → List String → List String
  | [], _ => []
  | x :: xs, seen =>
    if seen.contains x then dedupAux xs seen else x :: dedupAux xs (x :: seen)

/-- Models `list(dict.fromkeys(words))`. -/
def dedupFirst (l : List String) : List String := dedupAux l []

/-- `MemorySystem._extract_keywords`: split, filter stopwords and one-character
words, deduplicate keeping first occurrences, return at most 10 keywords. -/
def extract_keywords (text : String) : List String :=
  (dedupFirst (splitWords text.data "")).take 10

/-- The `context.get('emotion', {})` argument of the scorer. `absent` is a
missing or empty emotion dict (falsy in Python); `present h` is a non-empty
dict whose `happiness` value is `h` (a non-empty dict without the key behaves
as `present 50`). -/
inductive EmotionCtx
  | absent
  | present (happiness : Int)
deriving DecidableEq, Repr

/-- Significance vocabulary of `_calculate_conversation_importance`
(love, like, important, forever, promise, birthday, anniversary). -/
def important_keywords : List String :=
  ["爱", "喜欢", "重要", "永远", "承诺", "生日", "纪念日"]

/-- Emotional-intensity bonus of the scorer:
`int(abs(emotion.get('happiness', 50) - 50) / 50.0 * 20)` in exact
arithmetic, i.e. ⌊|h - 50| * 20 / 50⌋; zero when the emotion dict is falsy. -/
def emotionBonus : EmotionCtx → Int
  | .absent => 0
  | .present h => ((h - 50).natAbs * 20 / 50 : Nat)

/-- `MemorySystem._calculate_conversation_importance`: baseline 50, length
adjustment, emotional-intensity bonus, significance-vocabulary bonus checked
against `user_message` only, final clamp `max(1, min(100, importance))`. -/
def calculate_conversation_importance
    (user_message ai_response : String) (emotion : EmotionCtx) : Int :=
  let importance : Int := 50
  let total_length := user_message.length + ai_response.length
  let importance :=
    if 500 < total_length then importance + 10
    else if total_length < 50 then importance - 10
    else importance
  let importance := importance + emotionBonus emotion
  let importance :=
    if important_keywords.any (fun kw => strContains user_message kw)
    then importance + 15 else importance
  max 1 (min 100 importance)

/-- JSON text stored in the `content` and `metadata` columns, abstracted to
the fields the two writers serialize. -/
inductive Payload
  | convContent (user ai : String)
  | convMeta (user_id : String) (len : Nat)
  | eventContent (data : String)
  | eventMeta (event_type : String)
deriving DecidableEq, Repr

/-- One row of the `memories` table (schema of `_create_tables`). -/
structure MemoryRecord where
  id : Nat
  memory_type : String
  content : Payload
  metadata : Payload
  importance : Int
  timestamp : Int
  accessed_count : Nat
  last_accessed : Option Int
  expiration_date : Option Int
  tags : Option String
deriving DecidableEq, Repr

/-- One row of the `memory_relations` table. -/
structure MemRelation where
  memory_id : Nat
  related_id : Nat
  relation_type : String
deriving DecidableEq, Repr

/-- The SQLite database: next `AUTOINCREMENT` rowid plus both tables. -/
structure DbState where
  nextId : Nat
  memories : List MemoryRecord
  relations : List MemRelation
deriving DecidableEq, Repr

/-- One entry of the in-memory `short_term_cache` (the dict built by
`load_existing_memories` / `record_conversation`, common fields). -/
structure CacheEntry where
  id : Nat
  mtype : String
  content : Payload
  importance : Int
  timestamp : Int
deriving DecidableEq, Repr

/-- `self.cache_size`. -/
def cache_size : Nat := 20

/-- `ORDER BY importance DESC, timestamp DESC`: `a` sorts no later than `b`. -/
def impTimeLE (a b : MemoryRecord) : Prop :=
  b.importance < a.importance ∨
    (a.importance = b.importance ∧ b.timestamp ≤ a.timestamp)

instance : DecidableRel impTimeLE := fun a b => by
  unfold impTimeLE; exact inferInstance

instance : IsTotal MemoryRecord impTimeLE := by
  constructor
  intro a b
  rcases lt_trichotomy a.importance b.importance with h | h | h
  · exact Or.inr (Or.inl h)
  · rcases le_total a.timestamp b.timestamp with ht | ht
    · exact Or.inr (Or.inr ⟨h.symm, ht⟩)
    · exact Or.inl (Or.inr ⟨h, ht⟩)
  · exact Or.inl (Or.inl h)

instance : IsTrans MemoryRecord impTimeLE := by
  constructor
  intro a b c hab hbc
  rcases hab with h1 | ⟨h1, t1⟩
  · rcases hbc with h2 | ⟨h2, t2⟩
    · exact Or.inl (h2.trans h1)
    · exact Or.inl (h2 ▸ h1)
  · rcases hbc with h2 | ⟨h2, t2⟩
    · exact Or.inl (h1 ▸ h2)
    · exact Or.inr ⟨h1.trans h2, t2.trans t1⟩

/-- `ORDER BY importance DESC` (vector-hydration query). -/
def impLE (a b : MemoryRecord) : Prop := b.importance ≤ a.importance

instance : DecidableRel impLE := fun a b => by
  unfold impLE; exact inferInstance

/-- `ORDER BY timestamp DESC` (`load_existing_memories` query). -/
def timeLE (a b : MemoryRecord) : Prop := b.timestamp ≤ a.timestamp

instance : DecidableRel timeLE := fun a b => by
  unfold timeLE; exact inferInstance

/-- Sort by importance descending then timestamp descending. -/
def sortByImpTime (l : List MemoryRecord) : List MemoryRecord :=
  l.insertionSort impTimeLE

/-- SQL `tags LIKE '%kw%'` OR-combined over the given keywords; a NULL `tags`
column satisfies no `LIKE`, so the row is not selected. -/
def tagsLikeAny (kws : List String) (r : MemoryRecord) : Bool :=
  match r.tags with
  | none => false
  | some t => kws.any (fun kw => strContains t kw)

/-- Row-to-dict projection used when filling the cache. -/
def toCacheEntry (r : MemoryRecord) : CacheEntry :=
  ⟨r.id, r.memory_type, r.content, r.importance, r.timestamp⟩

/-- `MemorySystem.load_existing_memories`: select the rows with
`importance >= 70` ordered by `timestamp DESC` limited to `cache_size`, and
APPEND each to the existing `short_term_cache` (the cache is not cleared). -/
def load_existing_memories (st : DbState) (cache : List CacheEntry) :
    List CacheEntry :=
  cache ++
    (((st.memories.filter (fun r => decide (70 ≤ r.importance))).insertionSort
        timeLE).take cache_size).map toCacheEntry

/-- `MemorySystem._add_to_cache`: insert at the front, then truncate to
`cache_size` when the bound is exceeded. -/
def add_to_cache (m : CacheEntry) (cache : List CacheEntry) : List CacheEntry :=
  let c := m :: cache
  if cache_size < c.length then c.take cache_size else c

/-- Error raised by the durable medium, per the spec's taxonomy. -/
inductive DbError
  | storageUnavailable
deriving DecidableEq, Repr

/-- The `INSERT INTO memories` performed by `record_event`: note that the
`tags` column is not in the column list, so it keeps its NULL default. -/
def insertEvent (now : Int) (event_type data : String) (importance : Int)
    (st : DbState) : Nat × DbState :=
  let r : MemoryRecord :=
    { id := st.nextId, memory_type := "event",
      content := .eventContent data, metadata := .eventMeta event_type,
      importance := importance, timestamp := now,
      accessed_count := 0, last_accessed := none,
      expiration_date := none, tags := none }
  (st.nextId, { st with nextId := st.nextId + 1, memories := st.memories ++ [r] })

/-- Body of `record_event` inside its `try`: fails with `StorageUnavailable`
when the durable medium is down, otherwise inserts with the caller-supplied
importance (`event_data.get('importance', 50)`) — NOT clamped. -/
def record_event_inner (avail : Bool) (now : Int) (event_type data : String)
    (importance : Int) (st : DbState) : Except DbError (Nat × DbState) :=
  if avail then .ok (insertEvent now event_type data importance st)
  else .error .storageUnavailable

/-- `MemorySystem.record_event`: the whole body is wrapped in
`try/except Exception`, which logs and returns `None`, leaving the state as
it was; no error reaches the caller. -/
def record_event (avail : Bool) (now : Int) (event_type data : String)
    (importance : Int) (st : DbState) : Option Nat × DbState :=
  match record_event_inner avail now event_type data importance st with
  | .ok (i, st') => (some i, st')
  | .error _ => (none, st)

/-- `MemorySystem.record_interaction`: delegates to `record_event` with the
`interaction_`-prefixed type. -/
def record_interaction (avail : Bool) (now : Int) (interaction_type data : String)
    (importance : Int) (st : DbState) : Option Nat × DbState :=
  record_event avail now ("interaction_" ++ interaction_type) data importance st

/-- `MemorySystem._establish_relations`: for a new record, find up to 3 other
records whose tags match any of the first 3 keywords (ordered by importance
desc, timestamp desc) and insert one `semantic` relation per match. Its body
is wrapped in its own `try/except`, so failures never escape. -/
def establish_relations (newId : Nat) (keywords : List String) (st : DbState) :
    DbState :=
  if keywords.isEmpty then st
  else
    let conds := keywords.take 3
    let related :=
      (sortByImpTime (st.memories.filter
        (fun r => r.id != newId && tagsLikeAny conds r))).take 3
    { st with relations :=
        st.relations ++ related.map (fun r => ⟨newId, r.id, "semantic"⟩) }

/-- Body of `record_conversation` inside its `try`. `auxFail` models the
auxiliary steps (vector-db indexing, relation building) failing; both are
wrapped in their own `try/except` in the source, so the write still succeeds.
The `tags` column gets `','.join(keywords[:5]) if keywords else ''` — an empty
string, never NULL, when no keywords exist. -/
def record_conversation_inner (avail auxFail : Bool) (now : Int)
    (user_message ai_response : String) (emotion : EmotionCtx) (user_id : String)
    (st : DbState) (cache : List CacheEntry) :
    Except DbError (Nat × DbState × List CacheEntry) :=
  if avail then
    let importance := calculate_conversation_importance user_message ai_response emotion
    let keywords := extract_keywords (user_message ++ " " ++ ai_response)
    let r : MemoryRecord :=
      { id := st.nextId, memory_type := "conversation",
        content := .convContent user_message ai_response,
        metadata := .convMeta user_id (user_message.length + ai_response.length),
        importance := importance, timestamp := now,
        accessed_count := 0, last_accessed := none, expiration_date := none,
        tags := some (String.intercalate "," (keywords.take 5)) }
    let st1 : DbState :=
      { st with nextId := st.nextId + 1, memories := st.memories ++ [r] }
    let cache1 := add_to_cache ⟨r.id, "conversation", r.content, importance, now⟩ cache
    let st2 := if auxFail then st1 else establish_relations r.id keywords st1
    .ok (r.id, st2, cache1)
  else .error .storageUnavailable

/-- `MemorySystem.record_conversation`: wrapped in `try/except Exception`,
which logs and returns `None`; no error reaches the caller. -/
def record_conversation (avail auxFail : Bool) (now : Int)
    (user_message ai_response : String) (emotion : EmotionCtx) (user_id : String)
    (st : DbState) (cache : List CacheEntry) :
    Option Nat × DbState × List CacheEntry :=
  match record_conversation_inner avail auxFail now user_message ai_response
      emotion user_id st cache with
  | .ok (i, st', cache') => (some i, st', cache')
  | .error _ => (none, st, cache)

/-- Vector-db entry id written by `_add_to_vector_db`: the STRING
`f"memory_{memory_id}"`. -/
def vectorDbId (memory_id : Nat) : String := "memory_" ++ toString memory_id

/-- Models SQLite's handling of a bound TEXT parameter compared with the
INTEGER-affinity `id` column: text consisting of decimal digits is converted
to the corresponding integer; any other text (such as `memory_5`) stays
TEXT, and under SQLite's cross-type ordering an INTEGER never equals a TEXT
value. -/
def textToIntId (s : String) : Option Nat :=
  if !s.data.isEmpty && s.data.all Char.isDigit then
    some (s.data.foldl (fun n c => n * 10 + (c.toNat - '0'.toNat)) 0)
  else none

/-- SQL `id = ?` with the INTEGER column value `n` and a bound TEXT
parameter `s`, under INTEGER affinity. -/
def textMatchesIntId (s : String) (n : Nat) : Bool :=
  match textToIntId s with
  | some m => m == n
  | none => false

/-- The optional ChromaDB collection (`self.vector_collection`): a similarity
search oracle returning ranked entry ids. ChromaDB ids are STRINGS — the
writer `_add_to_vector_db` stores them as `vectorDbId` values — and the
search returns them verbatim. `MemorySystem` works with the capability
entirely absent (`Option`). -/
structure VectorIndex where
  search : String → Nat → List String

/-- Hydration query of the semantic path:
`SELECT ... WHERE id IN (...) ORDER BY importance DESC`, with the returned
STRING ids bound directly against the INTEGER `id` column (so ids of the
`memory_{id}` form written by `_add_to_vector_db` match no row). It has no
filter on `expiration_date`. -/
def hydrateVector (ids : List String) (st : DbState) : List MemoryRecord :=
  (st.memories.filter
    (fun r => ids.any (fun s => textMatchesIntId s r.id))).insertionSort impLE

/-- Result rows of the semantic (vector) branch of
`retrieve_related_memories`, paired with the number of `memories`-table
statements it issues. -/
def semanticResults (vi : Option VectorIndex) (query : String) (lim : Nat)
    (st : DbState) : List MemoryRecord × Nat :=
  match vi with
  | none => ([], 0)
  | some v =>
    if 2 < query.length then
      let ids := v.search query (min lim 10)
      if ids.isEmpty then ([], 0) else (hydrateVector ids st, 1)
    else ([], 0)

/-- Rows of the keyword query of `retrieve_related_memories`:
`WHERE tags LIKE ... OR ... ORDER BY importance DESC, timestamp DESC LIMIT n`
over the first 3 extracted keywords. No `expiration_date` filter here either. -/
def keywordHits (query : String) (n : Nat) (st : DbState) : List MemoryRecord :=
  (sortByImpTime (st.memories.filter
    (tagsLikeAny ((extract_keywords query).take 3)))).take n

/-- The row-append loop of the keyword branch: a row is appended only when no
already-collected memory has the same id. -/
def appendDedup (acc : List MemoryRecord) : List MemoryRecord → List MemoryRecord
  | [] => acc
  | row :: rest =>
    if acc.any (fun m => m.id == row.id) then appendDedup acc rest
    else appendDedup (acc ++ [row]) rest

/-- Output of `retrieve_related_memories`: the returned row snapshots, the
state after the access-count updates, and how many SQL statements
(`SELECT`s and `UPDATE`s) were issued against the `memories` table. -/
structure RetrieveResult where
  results : List MemoryRecord
  state : DbState
  storeQueries : Nat
deriving Repr

/-- `MemorySystem.retrieve_related_memories`: semantic branch first (when the
index is present and `len(query) > 2`), then the keyword branch when fewer
than `limit` rows were collected, then `accessed_count`/`last_accessed`
updates for every returned row. The function applies no expiry filter. -/
def retrieve_related_memories (vi : Option VectorIndex) (now : Int)
    (query : String) (lim : Nat) (st : DbState) : RetrieveResult :=
  let sem := (semanticResults vi query lim st).1
  let q1 := (semanticResults vi query lim st).2
  let memories :=
    if sem.length < lim ∧ ¬(extract_keywords query).isEmpty then
      appendDedup sem (keywordHits query (lim - sem.length) st)
    else sem
  let q2 : Nat :=
    if sem.length < lim ∧ ¬(extract_keywords query).isEmpty then 1 else 0
  let st' : DbState :=
    { st with memories := st.memories.map (fun r =>
        if memories.any (fun m => m.id == r.id) then
          { r with accessed_count := r.accessed_count + 1,
                   last_accessed := some now }
        else r) }
  ⟨memories, st', q1 + q2 + memories.length⟩

/-- DELETE condition of consolidation step 1:
`expiration_date IS NOT NULL AND expiration_date < CURRENT_TIMESTAMP`. -/
def isExpired (now : Int) (r : MemoryRecord) : Bool :=
  match r.expiration_date with
  | none => false
  | some e => decide (e < now)

/-- Consolidation step 2 on one row: `importance = CASE WHEN importance + 5 >
100 THEN 100 ELSE importance + 5 END WHERE accessed_count >= 10 AND
importance < 90`. -/
def reinforceStep (r : MemoryRecord) : MemoryRecord :=
  if 10 ≤ r.accessed_count ∧ r.importance < 90 then
    { r with importance :=
        if 100 < r.importance + 5 then 100 else r.importance + 5 }
  else r

/-- Consolidation step 3 on one row: decay records with `last_accessed` set,
idle for more than 30 days, and `importance > 20`, clamping at 1. -/
def decayStep (now : Int) (r : MemoryRecord) : MemoryRecord :=
  match r.last_accessed with
  | none => r
  | some la =>
    if 30 < now - la ∧ 20 < r.importance then
      { r with importance :=
          if r.importance - 2 < 1 then 1 else r.importance - 2 }
    else r

/-- The module-level `consolidate_memories(self)` function: delete expired
rows, reinforce frequently-accessed rows, decay stale rows, then reload the
cache via `load_existing_memories` (which appends). -/
def consolidate_memories (now : Int) (st : DbState) (cache : List CacheEntry) :
    DbState × List CacheEntry :=
  let m1 := st.memories.filter (fun r => !isExpired now r)
  let m2 := m1.map reinforceStep
  let m3 := m2.map (decayStep now)
  let st' : DbState := { st with memories := m3 }
  (st', load_existing_memories st' cache)

/-- Names of the `def`s lexically inside the `class MemorySystem:` block
(indented one level under the class header); these are the instance's
methods. The block ends at line 556, where a column-0 `def` appears. -/
def memorySystemClassMethods : List String :=
  ["__init__", "_get_db_connection", "_create_tables", "_init_database",
   "_init_vector_database", "load_existing_memories", "record_conversation",
   "record_event", "record_interaction", "_calculate_conversation_importance",
   "_extract_keywords", "_add_to_vector_db", "_add_to_cache",
   "_establish_relations", "retrieve_related_memories", "get_recent_memories",
   "get_last_interaction_time"]

/-- Names of column-0 `def`s of the module `memory_system.py` outside any
class body. -/
def moduleLevelDefs : List String := ["consolidate_memories"]

/-- Names of the `def`s nested lexically inside the module-level
`consolidate_memories` function (indented one level under it). -/
def consolidateInnerDefs : List String :=
  ["get_stats", "save_state", "close_connections", "__del__"]

/-- Python attribute lookup for a method call `self.<name>(...)` on a
`MemorySystem` instance: resolves against the class body's `def`s, raising
`AttributeError` otherwise (as in `self.memory.consolidate_memories()` in
`consciousness._memory_maintenance_loop`). -/
def callMethod (name : String) : Except String String :=
  if memorySystemClassMethods.contains name then .ok name
  else .error "AttributeError"

/-- Scorer as the spec words it (`score(kind, content, metadata)`): identical
to `calculate_conversation_importance` except that the significance
vocabulary is checked against the whole record content (user text and agent
text), not the user message alone. This definition follows the spec's words
and exists only to be compared with the source's scorer. -/
def spec_conversation_importance
    (user_message ai_response : String) (emotion : EmotionCtx) : Int :=
  let importance : Int := 50
  let total_length := user_message.length + ai_response.length
  let importance :=
    if 500 < total_length then importance + 10
    else if total_length < 50 then importance - 10
    else importance
  let importance := importance + emotionBonus emotion
  let importance :=
    if important_keywords.any
        (fun kw => strContains (user_message ++ " " ++ ai_response) kw)
    then importance + 15 else importance
  max 1 (min 100 importance)

/-- Length adjustment of the scorer, isolated for the additive decomposition
of the amended C5 claim. -/
def lengthAdj (total_length : Nat) : Int :=
  if 500 < total_length then 10 else if total_length < 50 then -10 else 0

/-- Significance-vocabulary bonus of the scorer (checked against the user
message only), isolated for the additive decomposition of the amended C5
claim. -/
def sigBonus (user_message : String) : Int :=
  if important_keywords.any (fun kw => strContains user_message kw) then 15
  else 0

/-- Conversation record template for concrete test stores. -/
def baseRec : MemoryRecord :=
  { id := 1, memory_type := "conversation", content := .convContent "" "",
    metadata := .convMeta "u" 0, importance := 50, timestamp := 0,
    accessed_count := 0, last_accessed := none, expiration_date := none,
    tags := some "" }

/-- Record A of the retrieval-ordering scenario: importance 80, tags contain
`birthday`. -/
def recA : MemoryRecord :=
  { baseRec with
    id := 1, importance := 80, timestamp := 10, tags := some "birthday,cake" }

/-- Record B of the retrieval-ordering scenario: importance 40, tags contain
`birthday`. -/
def recB : MemoryRecord :=
  { baseRec with
    id := 2, importance := 40, timestamp := 20, tags := some "happy birthday" }

/-- Two-record store for the retrieval-ordering scenario. -/
def stAB : DbState := ⟨3, [recA, recB], []⟩

/-- An expired record (`expiration_date` in the past relative to time 100)
whose tags match the query `birthday`. -/
def recExp : MemoryRecord :=
  { baseRec with
    id := 1, importance := 60, expiration_date := some 0,
    tags := some "birthday,cake" }

/-- Store holding only the expired record. -/
def stExp : DbState := ⟨2, [recExp], []⟩

/-- A live (non-expired) record with id 2, untouched by reinforcement and
decay. -/
def recKeep : MemoryRecord := { baseRec with id := 2, importance := 50 }

/-- A semantic index whose search always reports the entry id that
`_add_to_vector_db` writes for record 1 (`memory_1`). -/
def viOne : VectorIndex := ⟨fun _ _ => [vectorDbId 1]⟩

/-- Cache entry used to pre-fill a full cache. -/
def cEnt : CacheEntry := ⟨0, "conversation", .convContent "" "", 80, 0⟩

theorem reinforceStep_id (r : MemoryRecord) : (reinforceStep r).id = r.id := by
  obtain ⟨i, mt, co, md, imp, ts, ac, la, ed, tg⟩ := r
  simp only [reinforceStep]
  split <;> rfl

theorem decayStep_id (now : Int) (r : MemoryRecord) :
    (decayStep now r).id = r.id := by
  obtain ⟨i, mt, co, md, imp, ts, ac, la, ed, tg⟩ := r
  cases la
  · rfl
  · simp only [decayStep]
    split <;> rfl

theorem reinforceStep_importance_of (r : MemoryRecord)
    (h1 : 10 ≤ r.accessed_count) (h2 : r.importance < 90) :
    (reinforceStep r).importance = min 100 (r.importance + 5) := by
  obtain ⟨i, mt, co, md, imp, ts, ac, la, ed, tg⟩ := r
  simp only at h1 h2
  simp only [reinforceStep, if_pos (And.intro h1 h2)]
  split_ifs <;> simp_all <;> omega

theorem reinforceStep_eq_self (r : MemoryRecord)
    (h : ¬(10 ≤ r.accessed_count ∧ r.importance < 90)) :
    reinforceStep r = r := by
  simp only [reinforceStep, if_neg h]

theorem reinforceStep_range (r : MemoryRecord)
    (h : 1 ≤ r.importance ∧ r.importance ≤ 100) :
    1 ≤ (reinforceStep r).importance ∧ (reinforceStep r).importance ≤ 100 := by
  obtain ⟨i, mt, co, md, imp, ts, ac, la, ed, tg⟩ := r
  simp only [reinforceStep] at *
  split_ifs <;> simp_all <;> omega

theorem decayStep_range (now : Int) (r : MemoryRecord)
    (h : 1 ≤ r.importance ∧ r.importance ≤ 100) :
    1 ≤ (decayStep now r).importance ∧ (decayStep now r).importance ≤ 100 := by
  obtain ⟨i, mt, co, md, imp, ts, ac, la, ed, tg⟩ := r
  simp only at h
  cases la
  · exact h
  · simp only [decayStep]
    split_ifs <;> simp_all <;> omega

theorem establish_relations_memories (i : Nat) (k : List String) (st : DbState) :
    (establish_relations i k st).memories = st.memories := by
  unfold establish_relations
  split <;> rfl

theorem tagsLikeAny_nil (r : MemoryRecord) : tagsLikeAny [] r = false := by
  unfold tagsLikeAny
  cases r.tags <;> rfl

theorem tagsLikeAny_of_tags_none (kws : List String) (r : MemoryRecord)
    (h : r.tags = none) : tagsLikeAny kws r = false := by
  unfold tagsLikeAny
  rw [h]

theorem textToIntId_vectorDbId (i : Nat) : textToIntId (vectorDbId i) = none := by
  unfold textToIntId vectorDbId
  rw [if_neg]
  intro hcond
  rw [Bool.and_eq_true, String.data_append, List.all_append] at hcond
  have h1 : ("memory_".data.all Char.isDigit) = false := by decide
  rw [Bool.and_eq_true] at hcond
  rw [h1] at hcond
  exact Bool.false_ne_true hcond.2.1

theorem textMatchesIntId_vectorDbId (i n : Nat) :
    textMatchesIntId (vectorDbId i) n = false := by
  unfold textMatchesIntId
  rw [textToIntId_vectorDbId]

theorem hydrateVector_eq_nil (ids : List String) (st : DbState)
    (h : ∀ s ∈ ids, ∀ n : Nat, textMatchesIntId s n = false) :
    hydrateVector ids st = [] := by
  unfold hydrateVector
  rw [List.filter_eq_nil_iff.mpr ?_]
  · rfl
  · intro r _
    rw [Bool.not_eq_true, List.any_eq_false]
    intro s hs
    rw [Bool.not_eq_true]
    exact h s hs r.id

theorem appendDedup_eq (rows : List MemoryRecord) :
    ∀ acc : List MemoryRecord, ((acc ++ rows).map (·.id)).Nodup →
      appendDedup acc rows = acc ++ rows := by
  induction rows with
  | nil => intro acc _; simp [appendDedup]
  | cons row rest ih =>
    intro acc h
    have hany : acc.any (fun m => m.id == row.id) = false := by
      rw [List.any_eq_false]
      intro m hm
      simp only [beq_iff_eq]
      intro hEq
      rw [List.map_append, List.nodup_append] at h
      exact (h.2.2 (List.mem_map_of_mem _ hm)) (by simp [hEq])
    have hre : acc ++ row :: rest = (acc ++ [row]) ++ rest := by simp
    rw [appendDedup, hany]
    simp only [Bool.false_eq_true, if_false]
    rw [hre]
    exact ih (acc ++ [row]) (by rw [← hre]; exact h)

theorem mem_keywordHits {q : String} {n : Nat} {st : DbState} {r : MemoryRecord}
    (h : r ∈ keywordHits q n st) :
    r ∈ st.memories ∧ tagsLikeAny ((extract_keywords q).take 3) r = true := by
  have h1 : r ∈ sortByImpTime
      (st.memories.filter (tagsLikeAny ((extract_keywords q).take 3))) :=
    List.mem_of_mem_take h
  have h2 : r ∈ st.memories.filter (tagsLikeAny ((extract_keywords q).take 3)) := by
    unfold sortByImpTime at h1
    exact (List.mem_insertionSort impTimeLE).mp h1
  exact ⟨(List.mem_filter.mp h2).1, (List.mem_filter.mp h2).2⟩

theorem keywordHits_length (q : String) (n : Nat) (st : DbState) :
    (keywordHits q n st).length ≤ n := by
  unfold keywordHits
  simpa using List.length_take_le n _

theorem keywordHits_sorted (q : String) (n : Nat) (st : DbState) :
    List.Sorted impTimeLE (keywordHits q n st) := by
  have hs : List.Sorted impTimeLE
      (sortByImpTime (st.memories.filter (tagsLikeAny ((extract_keywords q).take 3)))) :=
    List.sorted_insertionSort impTimeLE _
  exact hs.sublist (List.take_sublist _ _)

theorem keywordHits_nodup (q : String) (n : Nat) (st : DbState)
    (h : (st.memories.map (·.id)).Nodup) :
    ((keywordHits q n st).map (·.id)).Nodup := by
  have h1 : ((st.memories.filter
      (tagsLikeAny ((extract_keywords q).take 3))).map (·.id)).Nodup :=
    List.Nodup.sublist ((List.filter_sublist _).map _) h
  have hp : List.Perm
      ((sortByImpTime (st.memories.filter
        (tagsLikeAny ((extract_keywords q).take 3)))).map (fun r => r.id))
      ((st.memories.filter
        (tagsLikeAny ((extract_keywords q).take 3))).map (fun r => r.id)) :=
    (List.perm_insertionSort impTimeLE _).map _
  have h2 := hp.nodup_iff.mpr h1
  exact List.Nodup.sublist ((List.take_sublist _ _).map _) h2

theorem keywordHits_of_no_keywords {q : String} (n : Nat) (st : DbState)
    (h : extract_keywords q = []) : keywordHits q n st = [] := by
  unfold keywordHits sortByImpTime
  rw [h]
  rw [List.filter_eq_nil_iff.mpr (fun r _ => by simp [tagsLikeAny_nil])]
  simp

theorem keepChar_whitespace {c : Char} (h : c.isWhitespace = true) :
    keepChar c = false := by
  simp only [Char.isWhitespace, Bool.or_eq_true, decide_eq_true_eq] at h
  rcases h with ((h | h) | h) | h <;> subst h <;> decide

theorem splitWords_whitespace (l : List Char)
    (h : ∀ c ∈ l, c.isWhitespace = true) : splitWords l "" = [] := by
  induction l with
  | nil => rfl
  | cons c rest ih =>
    have hk := keepChar_whitespace (h c (by simp))
    simp only [splitWords, hk, Bool.false_eq_true, if_false]
    rw [ih (fun c' hc' => h c' (by simp [hc']))]
    rfl

theorem extract_keywords_whitespace (q : String)
    (h : q.data.all Char.isWhitespace = true) : extract_keywords q = [] := by
  have hs : splitWords q.data "" = [] :=
    splitWords_whitespace _ (by simpa [List.all_eq_true] using h)
  simp [extract_keywords, hs, dedupFirst, dedupAux]

theorem calculate_range (u a : String) (e : EmotionCtx) :
    1 ≤ calculate_conversation_importance u a e ∧
      calculate_conversation_importance u a e ≤ 100 :=
  ⟨le_max_left 1 _, max_le (by norm_num) (min_le_left _ _)⟩

theorem calculate_decomp (u a : String) (e : EmotionCtx) :
    calculate_conversation_importance u a e =
      max 1 (min 100
        (50 + lengthAdj (u.length + a.length) + emotionBonus e + sigBonus u)) := by
  simp only [calculate_conversation_importance, lengthAdj, sigBonus]
  split_ifs <;> omega

theorem emotionBonus_le_twenty (h : Int) (h0 : 0 ≤ h) (h100 : h ≤ 100) :
    emotionBonus (.present h) ≤ 20 := by
  simp only [emotionBonus]
  omega

theorem retrieve_none_results (now : Int) (q : String) (lim : Nat) (st : DbState)
    (hnd : ((keywordHits q lim st).map (fun r => r.id)).Nodup) :
    (retrieve_related_memories none now q lim st).results = keywordHits q lim st := by
  by_cases hk : (extract_keywords q).isEmpty
  · have hke : extract_keywords q = [] := by simpa using hk
    simp [retrieve_related_memories, semanticResults, hk,
      keywordHits_of_no_keywords lim st hke]
  · by_cases hl : 0 < lim
    · have h1 : appendDedup [] (keywordHits q lim st) = keywordHits q lim st := by
        have h2 := appendDedup_eq (keywordHits q lim st) [] (by simpa using hnd)
        simpa using h2
      simp [retrieve_related_memories, semanticResults, hk, hl, h1]
    · have hl0 : lim = 0 := by omega
      subst hl0
      simp [retrieve_related_memories, semanticResults, keywordHits]

theorem load_existing_length (st : DbState) (cache : List CacheEntry) :
    (load_existing_memories st cache).length ≤ cache.length + cache_size := by
  simp only [load_existing_memories, List.length_append, List.length_map]
  have h := List.length_take_le cache_size
    ((st.memories.filter (fun r => decide (70 ≤ r.importance))).insertionSort timeLE)
  omega

/-- Claim C1, counterexample: the record `recExp` has `expiration_date` in the
past at time 100, yet `retrieve_related_memories` returns it — the read path
does not apply the expiry cutoff. -/
theorem c1_counterexample :
    isExpired 100 recExp = true ∧
      recExp ∈ (retrieve_related_memories none 100 "birthday" 5 stExp).results := by
  decide

/-- Claim C2, counterexample: a record entering consolidation with
`accessed_count = 10` and `importance = 98` keeps importance 98 (the
reinforcement guard `importance < 90` excludes it), not 100 as claimed. -/
theorem c2_counterexample :
    ((consolidate_memories 0
        ⟨2, [{ baseRec with importance := 98, accessed_count := 10 }], []⟩
        []).1.memories.map (fun r => r.importance)) = [98] ∧
      (98 : Int) ≠ 100 := by
  decide

/-- Claim C3, counterexample: `record_event` stores the caller-supplied
importance 150 unclamped, so the stored record violates the [1,100]
invariant. -/
theorem c3_counterexample :
    ((record_event true 0 "test" "d" 150 ⟨1, [], []⟩).2.memories.map
        (fun r => r.importance)) = [150] ∧
      ¬((150 : Int) ≤ 100) := by
  decide

/-- Claim C4, counterexample: with a full cache of `cache_size = 20` entries,
one consolidation run reloads the cache by appending, leaving 21 entries —
more than `cache_size`. -/
theorem c4_counterexample :
    ((consolidate_memories 0 ⟨2, [{ baseRec with importance := 80 }], []⟩
        (List.replicate 20 cEnt)).2).length = 21 ∧
      ¬(21 ≤ cache_size) := by
  decide

/-- Claim C5, counterexample: the significance term `爱` occurs in the record
content (inside the agent reply) but not in the user message, so the source's
scorer omits the +15 bonus the spec's wording requires: 40 versus 55. -/
theorem c5_counterexample :
    calculate_conversation_importance "hello" "i love you 爱你哦" .absent = 40 ∧
      spec_conversation_importance "hello" "i love you 爱你哦" .absent = 55 ∧
      calculate_conversation_importance "hello" "i love you 爱你哦" .absent ≠
        spec_conversation_importance "hello" "i love you 爱你哦" .absent := by
  decide

/-- Claim C7, counterexample: for the whitespace-only query `"   "` (length
3 > 2), a present semantic index still runs and issues the hydration SELECT
— a Store query — even though its `memory_{id}` string ids match no row of
the INTEGER `id` column, so the returned sequence is empty. -/
theorem c7_counterexample :
    ("   ".data.all Char.isWhitespace = true) ∧
      (retrieve_related_memories (some viOne) 0 "   " 5 stExp).results = [] ∧
      (retrieve_related_memories (some viOne) 0 "   " 5 stExp).storeQueries = 1 ∧
      (1 : Nat) ≠ 0 := by
  decide

/-- Claim C8, counterexample: when the durable medium is unavailable the
inner write fails with `StorageUnavailable`, but `record_event` catches it
and returns `None` with the state unchanged — the error is swallowed, not
surfaced. -/
theorem c8_counterexample :
    record_event_inner false 0 "t" "d" 50 ⟨1, [], []⟩ =
        .error .storageUnavailable ∧
      record_event false 0 "t" "d" 50 ⟨1, [], []⟩ = (none, ⟨1, [], []⟩) :=
  ⟨rfl, rfl⟩

/-- Claim C6: with no semantic index, `retrieve_related_memories` returns the
keyword-tag hits — the records whose tags match the first 3 extracted
keywords, ordered by importance descending then timestamp descending,
truncated to `limit` — with pairwise-distinct ids (given distinct store
ids). -/
theorem c6_theorem (now : Int) (q : String) (lim : Nat) (st : DbState)
    (hnd : (st.memories.map (fun r => r.id)).Nodup) :
    (retrieve_related_memories none now q lim st).results = keywordHits q lim st ∧
      List.Sorted impTimeLE (retrieve_related_memories none now q lim st).results ∧
      (retrieve_related_memories none now q lim st).results.length ≤ lim ∧
      ((retrieve_related_memories none now q lim st).results.map
        (fun r => r.id)).Nodup := by
  have hknd := keywordHits_nodup q lim st hnd
  have hres := retrieve_none_results now q lim st hknd
  rw [hres]
  exact ⟨rfl, keywordHits_sorted q lim st, keywordHits_length q lim st, hknd⟩

/-- Claim C6, witness: records A (importance 80) and B (importance 40) both
match the query `birthday`; `retrieve(query, 2)` returns `[A, B]`. -/
theorem c6_witness :
    (retrieve_related_memories none 0 "birthday" 2 stAB).results = [recA, recB] ∧
      List.Sorted impTimeLE (retrieve_related_memories none 0 "birthday" 2 stAB).results ∧
      (retrieve_related_memories none 0 "birthday" 2 stAB).results.length ≤ 2 ∧
      ((retrieve_related_memories none 0 "birthday" 2 stAB).results.map
        (fun r => r.id)).Nodup := by
  have h := c6_theorem 0 "birthday" 2 stAB (by decide)
  exact ⟨by decide, h.2.1, h.2.2.1, h.2.2.2⟩

/-- Claim C1, amended: only the consolidation delete path applies the cutoff
`expiration_date < now` (no record sharing an expired id survives a run),
while the read path applies no expiry filter at all — a record with
`expiration_date` in the past that matches the query keywords is still
returned by `retrieve_related_memories`. -/
theorem c1_theorem :
    (∀ (now : Int) (st : DbState) (cache : List CacheEntry) (rid : Nat),
        (∀ r ∈ st.memories, r.id = rid → isExpired now r = true) →
        ∀ x ∈ (consolidate_memories now st cache).1.memories, x.id ≠ rid) ∧
      (∀ (now now2 : Int) (q : String) (lim : Nat) (nid : Nat)
          (rel : List MemRelation) (r : MemoryRecord),
          tagsLikeAny ((extract_keywords q).take 3) r = true → 1 ≤ lim →
          isExpired now r = true →
          r ∈ (retrieve_related_memories none now2 q lim ⟨nid, [r], rel⟩).results) := by
  constructor
  · intro now st cache rid hexp x hx
    simp only [consolidate_memories, List.map_map, List.mem_map] at hx
    obtain ⟨a, ha, hax⟩ := hx
    have ha' := List.mem_filter.mp ha
    intro hxid
    have haid : a.id = rid := by
      have : x.id = a.id := by
        rw [← hax]
        simp [Function.comp, decayStep_id, reinforceStep_id]
      rw [← this, hxid]
    have hcontra := hexp a ha'.1 haid
    have := ha'.2
    rw [hcontra] at this
    simp at this
  · intro now now2 q lim nid rel r htags hlim hexp
    have hkh : keywordHits q lim ⟨nid, [r], rel⟩ = [r] := by
      unfold keywordHits sortByImpTime
      rcases lim with _ | m
      · omega
      · simp [htags, List.insertionSort, List.orderedInsert]
    have hnd : ((keywordHits q lim ⟨nid, [r], rel⟩).map (fun x => x.id)).Nodup := by
      rw [hkh]; simp
    rw [retrieve_none_results now2 q lim ⟨nid, [r], rel⟩ hnd, hkh]
    simp

/-- Claim C1, witness: in a store holding the expired record `recExp` (id 1)
and the live record `recKeep` (id 2), the survivor of one consolidation run
at time 100 does not have id 1, and retrieval still returns `recExp` before
that run. -/
theorem c1_witness :
    recKeep.id ≠ 1 ∧
      recExp ∈ (retrieve_related_memories none 100 "birthday" 5 stExp).results := by
  constructor
  · exact c1_theorem.1 100 ⟨3, [recExp, recKeep], []⟩ [] 1 (by decide) recKeep
      (by decide)
  · exact c1_theorem.2 100 100 "birthday" 5 2 [] recExp (by decide) (by norm_num)
      (by decide)

/-- Claim C2, amended: the reinforcement step sets
`importance = min(100, importance + 5)` exactly for records with
`access_count ≥ 10` and `importance < 90` and leaves every other record
unchanged; a fresh record entering with `access_count = 10` and
`importance = 50` leaves one consolidation run with importance 55, while a
record with `importance = 98` is outside the guard and keeps 98. -/
theorem c2_theorem :
    (∀ r : MemoryRecord, 10 ≤ r.accessed_count → r.importance < 90 →
        (reinforceStep r).importance = min 100 (r.importance + 5)) ∧
      (∀ r : MemoryRecord, ¬(10 ≤ r.accessed_count ∧ r.importance < 90) →
        reinforceStep r = r) ∧
      (∀ (now : Int) (nid : Nat) (rel : List MemRelation)
          (cache : List CacheEntry) (r : MemoryRecord),
          10 ≤ r.accessed_count → r.importance = 50 → r.last_accessed = none →
          r.expiration_date = none →
          (consolidate_memories now ⟨nid, [r], rel⟩ cache).1.memories =
            [{ r with importance := 55 }]) := by
  refine ⟨reinforceStep_importance_of, reinforceStep_eq_self, ?_⟩
  intro now nid rel cache r hac himp hla hed
  obtain ⟨i, mt, co, md, imp, ts, ac, la, ed, tg⟩ := r
  simp only at hac himp hla hed
  subst himp hla hed
  simp [consolidate_memories, isExpired, reinforceStep, decayStep, hac]

/-- Claim C2, witness: a record with `accessed_count = 10` and importance 50
is reinforced to `min 100 55 = 55` by one consolidation run. -/
theorem c2_witness :
    (reinforceStep { baseRec with importance := 50, accessed_count := 10 }).importance =
        min 100 (50 + 5) ∧
      (consolidate_memories 0
          ⟨2, [{ baseRec with importance := 50, accessed_count := 10 }], []⟩
          []).1.memories =
        [{ ({ baseRec with importance := 50, accessed_count := 10 } : MemoryRecord) with
            importance := 55 }] := by
  constructor
  · exact c2_theorem.1 _ (by decide) (by decide)
  · exact c2_theorem.2.2 0 2 [] [] _ (by decide) rfl rfl rfl

/-- Claim C3, amended: the conversation scorer clamps to [1,100] and the
consolidation steps preserve that range, so conversation records and
consolidated stores keep `importance` in [1,100]; `record_event`, however,
stores the caller-supplied importance unclamped (see the counterexample). -/
theorem c3_theorem :
    (∀ (u a : String) (e : EmotionCtx),
        1 ≤ calculate_conversation_importance u a e ∧
          calculate_conversation_importance u a e ≤ 100) ∧
      (∀ (avail auxFail : Bool) (now : Int) (u a : String) (e : EmotionCtx)
          (uid : String) (st : DbState) (cache : List CacheEntry),
          ∀ r ∈ ((record_conversation avail auxFail now u a e uid st cache).2.1).memories,
            r ∈ st.memories ∨ (1 ≤ r.importance ∧ r.importance ≤ 100)) ∧
      (∀ (now : Int) (st : DbState) (cache : List CacheEntry),
          (∀ r ∈ st.memories, 1 ≤ r.importance ∧ r.importance ≤ 100) →
          ∀ r ∈ (consolidate_memories now st cache).1.memories,
            1 ≤ r.importance ∧ r.importance ≤ 100) := by
  refine ⟨calculate_range, ?_, ?_⟩
  · intro avail auxFail now u a e uid st cache r hr
    cases avail
    · exact Or.inl hr
    · cases auxFail
      · rw [record_conversation] at hr
        simp only [record_conversation_inner, if_true, cond_false,
          Bool.false_eq_true, if_false, establish_relations_memories] at hr
        rcases List.mem_append.mp hr with h | h
        · exact Or.inl h
        · right
          rw [List.mem_singleton.mp h]
          exact calculate_range u a e
      · rw [record_conversation] at hr
        simp only [record_conversation_inner, if_true] at hr
        rcases List.mem_append.mp hr with h | h
        · exact Or.inl h
        · right
          rw [List.mem_singleton.mp h]
          exact calculate_range u a e
  · intro now st cache hrange r hr
    simp only [consolidate_memories, List.map_map, List.mem_map] at hr
    obtain ⟨a, ha, hax⟩ := hr
    have ha' := List.mem_filter.mp ha
    have h1 := reinforceStep_range a (hrange a ha'.1)
    have h2 := decayStep_range now (reinforceStep a) h1
    rw [← hax]
    exact h2

/-- Claim C3, witness: the scorer output for a concrete exchange is in range,
the record written by a concrete conversation is in range, and a concrete
in-range store stays in range through one consolidation run. -/
theorem c3_witness :
    (1 ≤ calculate_conversation_importance "hi" "yo" .absent ∧
        calculate_conversation_importance "hi" "yo" .absent ≤ 100) ∧
      (recA ∈ stAB.memories ∨ (1 ≤ recA.importance ∧ recA.importance ≤ 100)) ∧
      (1 ≤ recA.importance ∧ recA.importance ≤ 100) := by
  refine ⟨c3_theorem.1 "hi" "yo" .absent, ?_, ?_⟩
  · exact c3_theorem.2.1 true false 0 "hi" "yo" .absent "u" stAB [] recA (by decide)
  · exact c3_theorem.2.2 0 stAB [] (by decide) recA (by decide)

/-- Claim C4, amended: `_add_to_cache` preserves the `cache_size` bound and
the startup load (from an empty cache) respects it, but
`load_existing_memories` appends to the existing cache, so the reload after a
consolidation run is only bounded by the previous size plus `cache_size` (see
the counterexample exceeding `cache_size`). -/
theorem c4_theorem :
    (∀ (m : CacheEntry) (cache : List CacheEntry), cache.length ≤ cache_size →
        (add_to_cache m cache).length ≤ cache_size) ∧
      (∀ st : DbState, (load_existing_memories st []).length ≤ cache_size) ∧
      (∀ (st : DbState) (cache : List CacheEntry),
        (load_existing_memories st cache).length ≤ cache.length + cache_size) := by
  refine ⟨?_, ?_, load_existing_length⟩
  · intro m cache h
    simp only [add_to_cache]
    split_ifs with hgt
    · simpa using List.length_take_le cache_size (m :: cache)
    · simp only [List.length_cons] at hgt ⊢
      omega
  · intro st
    have h := load_existing_length st []
    simpa using h

/-- Claim C4, witness: inserting into a cache of 19 entries keeps the bound,
and the other bounds hold at a concrete store. -/
theorem c4_witness :
    (add_to_cache cEnt (List.replicate 19 cEnt)).length ≤ cache_size ∧
      (load_existing_memories stAB []).length ≤ cache_size ∧
      (load_existing_memories stAB [cEnt]).length ≤ [cEnt].length + cache_size := by
  exact ⟨c4_theorem.1 cEnt (List.replicate 19 cEnt) (by decide),
    c4_theorem.2.1 stAB, c4_theorem.2.2 stAB [cEnt]⟩

/-- Claim C5, amended: the scorer is a deterministic pure function equal to
the clamp to [1,100] of baseline 50 plus the length adjustment, the emotional
deviation bonus (at most 20 for happiness in [0,100]), and a +15 significance
bonus determined by the user message alone — not by the whole record content
(see the counterexample). -/
theorem c5_theorem :
    (∀ (u a : String) (e : EmotionCtx),
        calculate_conversation_importance u a e =
            max 1 (min 100 (50 + lengthAdj (u.length + a.length) +
              emotionBonus e + sigBonus u)) ∧
          1 ≤ calculate_conversation_importance u a e ∧
          calculate_conversation_importance u a e ≤ 100) ∧
      (∀ h : Int, 0 ≤ h → h ≤ 100 → emotionBonus (.present h) ≤ 20) :=
  ⟨fun u a e => ⟨calculate_decomp u a e, (calculate_range u a e).1,
    (calculate_range u a e).2⟩, emotionBonus_le_twenty⟩

/-- Claim C5, witness: the decomposition and bounds at a concrete exchange,
and the emotion bonus bound at happiness 100. -/
theorem c5_witness :
    (calculate_conversation_importance "hello" "world" .absent =
        max 1 (min 100 (50 + lengthAdj ("hello".length + "world".length) +
          emotionBonus .absent + sigBonus "hello")) ∧
      1 ≤ calculate_conversation_importance "hello" "world" .absent ∧
      calculate_conversation_importance "hello" "world" .absent ≤ 100) ∧
      emotionBonus (.present 100) ≤ 20 := by
  exact ⟨c5_theorem.1 "hello" "world" .absent,
    c5_theorem.2 100 (by norm_num) (by norm_num)⟩

/-- Claim C7, amended: an empty or whitespace-only query yields the empty
sequence with no store query and no state change whenever the semantic index
is absent or the query has length at most 2; with a present index and a
whitespace query longer than 2 characters, the semantic path still runs and
issues the hydration SELECT when the index reports ids (see the
counterexample), but since the index holds the `memory_{id}` string ids
written by `_add_to_vector_db`, the SELECT matches no row of the INTEGER
`id` column and the returned sequence is still empty. Whenever no keywords
can be extracted, the result is exactly what the semantic path found. -/
theorem c7_theorem :
    (∀ (vi : Option VectorIndex) (now : Int) (q : String) (lim : Nat)
        (st : DbState), q.data.all Char.isWhitespace = true →
        (vi = none ∨ q.length ≤ 2) →
        retrieve_related_memories vi now q lim st = ⟨[], st, 0⟩) ∧
      (∀ (vi : Option VectorIndex) (now : Int) (q : String) (lim : Nat)
        (st : DbState), extract_keywords q = [] →
        (retrieve_related_memories vi now q lim st).results =
          (semanticResults vi q lim st).1) ∧
      (∀ (v : VectorIndex) (q : String) (lim : Nat) (st : DbState),
        (∀ s ∈ v.search q (min lim 10), ∃ i : Nat, s = vectorDbId i) →
        (semanticResults (some v) q lim st).1 = []) ∧
      (∀ (v : VectorIndex) (now : Int) (q : String) (lim : Nat) (st : DbState),
        q.data.all Char.isWhitespace = true →
        (∀ s ∈ v.search q (min lim 10), ∃ i : Nat, s = vectorDbId i) →
        (retrieve_related_memories (some v) now q lim st).results = []) := by
  have hpart3 : ∀ (v : VectorIndex) (q : String) (lim : Nat) (st : DbState),
      (∀ s ∈ v.search q (min lim 10), ∃ i : Nat, s = vectorDbId i) →
      (semanticResults (some v) q lim st).1 = [] := by
    intro v q lim st hids
    simp only [semanticResults]
    by_cases hq : 2 < q.length
    · rw [if_pos hq]
      by_cases he : (v.search q (min lim 10)).isEmpty
      · rw [if_pos he]
      · rw [if_neg he]
        exact hydrateVector_eq_nil _ st (fun s hs n => by
          obtain ⟨i, rfl⟩ := hids s hs
          exact textMatchesIntId_vectorDbId i n)
    · rw [if_neg hq]
  have hpart2 : ∀ (vi : Option VectorIndex) (now : Int) (q : String) (lim : Nat)
      (st : DbState), extract_keywords q = [] →
      (retrieve_related_memories vi now q lim st).results =
        (semanticResults vi q lim st).1 := by
    intro vi now q lim st hke
    simp [retrieve_related_memories, hke]
  refine ⟨?_, hpart2, hpart3, ?_⟩
  · intro vi now q lim st hws hvi
    have hke : extract_keywords q = [] := extract_keywords_whitespace q hws
    have hsem : semanticResults vi q lim st = ([], 0) := by
      rcases hvi with rfl | hlen
      · rfl
      · cases vi with
        | none => rfl
        | some v =>
          simp only [semanticResults]
          rw [if_neg (by omega)]
    simp [retrieve_related_memories, hsem, hke]
  · intro v now q lim st hws hids
    rw [hpart2 (some v) now q lim st (extract_keywords_whitespace q hws)]
    exact hpart3 v q lim st hids

/-- Claim C7, witness: a whitespace query with no index returns nothing and
touches nothing; an all-stopword query with an index present returns exactly
the semantic hits; an index holding only `memory_{id}` entry ids hydrates
nothing, so a whitespace query returns the empty sequence even with the
index present. -/
theorem c7_witness :
    retrieve_related_memories none 0 "   " 5 stAB = ⟨[], stAB, 0⟩ ∧
      (retrieve_related_memories (some viOne) 0 "的 的" 5 stExp).results =
        (semanticResults (some viOne) "的 的" 5 stExp).1 ∧
      (semanticResults (some viOne) "abc" 5 stExp).1 = [] ∧
      (retrieve_related_memories (some viOne) 0 "   " 5 stExp).results = [] := by
  refine ⟨?_, ?_, ?_, ?_⟩
  · exact c7_theorem.1 none 0 "   " 5 stAB (by decide) (Or.inl rfl)
  · exact c7_theorem.2.1 (some viOne) 0 "的 的" 5 stExp (by decide)
  · exact c7_theorem.2.2.1 viOne "abc" 5 stExp
      (fun s hs => ⟨1, List.mem_singleton.mp hs⟩)
  · exact c7_theorem.2.2.2 viOne 0 "   " 5 stExp (by decide)
      (fun s hs => ⟨1, List.mem_singleton.mp hs⟩)

/-- Claim C8, amended: with the durable medium unavailable, both writers
catch the failure and return `None` with the database state (and cache)
unchanged — the `StorageUnavailable` error is logged, not surfaced — while
auxiliary-step failures (`auxFail`) never fail the write: the available-path
write always returns the new id. -/
theorem c8_theorem :
    (∀ (now : Int) (t d : String) (i : Int) (st : DbState),
        record_event false now t d i st = (none, st)) ∧
      (∀ (auxFail : Bool) (now : Int) (u a : String) (e : EmotionCtx)
          (uid : String) (st : DbState) (cache : List CacheEntry),
          record_conversation false auxFail now u a e uid st cache =
            (none, st, cache)) ∧
      (∀ (auxFail : Bool) (now : Int) (u a : String) (e : EmotionCtx)
          (uid : String) (st : DbState) (cache : List CacheEntry),
          (record_conversation true auxFail now u a e uid st cache).1 =
            some st.nextId) :=
  ⟨fun _ _ _ _ _ => rfl, fun _ _ _ _ _ _ _ _ => rfl, fun _ _ _ _ _ _ _ _ => rfl⟩

/-- Claim C10: every record inserted by `record_event` has a NULL `tags`
column, and a record with NULL tags matches no keyword-tag condition, so the
keyword path of retrieval never returns an event record. -/
theorem c10_theorem :
    (∀ (avail : Bool) (now : Int) (t d : String) (i : Int) (st : DbState),
        ∀ r ∈ ((record_event avail now t d i st).2).memories,
          r ∈ st.memories ∨ r.tags = none) ∧
      (∀ (q : String) (n : Nat) (st : DbState) (r : MemoryRecord),
        r.tags = none → r ∉ keywordHits q n st) := by
  constructor
  · intro avail now t d i st r hr
    cases avail
    · exact Or.inl hr
    · simp only [record_event, record_event_inner, if_true, insertEvent] at hr
      rcases List.mem_append.mp hr with h | h
      · exact Or.inl h
      · right
        rw [List.mem_singleton.mp h]
  · intro q n st r htags hmem
    have h := (mem_keywordHits hmem).2
    rw [tagsLikeAny_of_tags_none _ _ htags] at h
    exact Bool.false_ne_true h

/-- Claim C10, witness: the concrete record written by a `record_event` call
has NULL tags, and a concrete NULL-tag record is never among the keyword
hits. -/
theorem c10_witness :
    ((⟨1, "event", .eventContent "d", .eventMeta "t", 50, 0, 0, none, none,
          none⟩ : MemoryRecord) ∈ (⟨1, [], []⟩ : DbState).memories ∨
        (⟨1, "event", .eventContent "d", .eventMeta "t", 50, 0, 0, none, none,
          none⟩ : MemoryRecord).tags = none) ∧
      ({ baseRec with tags := none } : MemoryRecord) ∉ keywordHits "birthday" 5 stAB := by
  constructor
  · exact c10_theorem.1 true 0 "t" "d" 50 ⟨1, [], []⟩ _ (by decide)
  · exact c10_theorem.2 "birthday" 5 stAB { baseRec with tags := none } rfl

/-- Claim C9: `consolidate_memories` and `get_stats` are not methods of
`MemorySystem` — the former is a module-level function, the latter is nested
inside it — so a method call on the instance (as the maintenance loop does)
raises `AttributeError`. -/
theorem c9_theorem :
    callMethod "consolidate_memories" = .error "AttributeError" ∧
      callMethod "get_stats" = .error "AttributeError" ∧
      "consolidate_memories" ∈ moduleLevelDefs ∧
      "get_stats" ∈ consolidateInnerDefs ∧
      "consolidate_memories" ∉ memorySystemClassMethods ∧
      "get_stats" ∉ memorySystemClassMethods :=
  ⟨rfl, rfl, by decide, by decide, by decide, by decide⟩

end MemorySys
